import Mathlib

/-!
Verification development for the response-recovery and schema-coercion
engine in `src/api/ai.py` (memo_ai repository).

The embedding models Python JSON values, the JSON (de)serialisation used by
the code, and the functions `validate_and_fix_json`, `analyze_text_with_ai`
and `chat_analyze_text_with_ai`.  Python exceptions are modelled with
`Except String`; a `.error` value corresponds to an exception propagating
out of the modelled region of code.  Machine floats are modelled by `Rat`
(the claims under study never depend on float rounding, only on whether a
numeric conversion succeeds); Python float formatting of non-integers is
not modelled exactly, which no claim observes.
-/

namespace MemoAi

/-- A parsed JSON value as produced by Python `json.loads`:
`None`, `bool`, numbers (`int` and `float` collapsed into `Rat`),
`str`, `list`, `dict` (association list in insertion order). -/
inductive JsonValue : Type where
  | null : JsonValue
  | bool : Bool → JsonValue
  | num : Rat → JsonValue
  | str : String → JsonValue
  | arr : List JsonValue → JsonValue
  | obj : List (String × JsonValue) → JsonValue

/-- Left brace character, written by code point. -/
def lbrace : Char := Char.ofNat 123

/-- Right brace character, written by code point. -/
def rbrace : Char := Char.ofNat 125

/-- Python truthiness (`bool(v)` / `if v:`) on JSON values. -/
def pyBool : JsonValue → Bool
  | .null => false
  | .bool b => b
  | .num q => q != 0
  | .str s => s != ""
  | .arr xs => !xs.isEmpty
  | .obj fs => !fs.isEmpty

/-- Whether a value is a Python `dict`. -/
def JsonValue.isObj : JsonValue → Bool
  | .obj _ => true
  | _ => false

/-- Whether a value is a Python `list`. -/
def JsonValue.isArr : JsonValue → Bool
  | .arr _ => true
  | _ => false

/-- Whether a value is a Python `str`. -/
def JsonValue.isStr : JsonValue → Bool
  | .str _ => true
  | _ => false

mutual
/-- Python `str(v)` on JSON values.  `None`, booleans and strings match
CPython exactly; integers match; non-integer float formatting and
container `repr` are best-effort (no claim observes those strings). -/
def pyStr : JsonValue → String
  | .null => "None"
  | .bool true => "True"
  | .bool false => "False"
  | .num q => if q.den = 1 then toString q.num else toString q
  | .str s => s
  | .arr xs => "[" ++ pyStrList xs ++ "]"
  | .obj fs => String.singleton lbrace ++ pyStrFields fs ++ String.singleton rbrace

/-- Comma-separated rendering of list elements. -/
def pyStrList : List JsonValue → String
  | [] => ""
  | [x] => pyStr x
  | x :: xs => pyStr x ++ ", " ++ pyStrList xs

/-- Comma-separated rendering of dict entries. -/
def pyStrFields : List (String × JsonValue) → String
  | [] => ""
  | [(k, v)] => k ++ ": " ++ pyStr v
  | (k, v) :: fs => k ++ ": " ++ pyStr v ++ ", " ++ pyStrFields fs
end

/-- Lookup in a dict, returning a default when the key is absent
(Python `d.get(key, default)`). -/
def objGetD (fs : List (String × JsonValue)) (key : String) (dflt : JsonValue) : JsonValue :=
  match fs.lookup key with
  | some v => v
  | none => dflt

/-- Python `key in d` for a dict. -/
def objHas (fs : List (String × JsonValue)) (key : String) : Bool :=
  fs.any (fun p => p.1 == key)

/-- Python `d[key] = v`: replace in place when the key exists (keeping its
position), otherwise append. -/
def objSet (fs : List (String × JsonValue)) (key : String) (v : JsonValue) :
    List (String × JsonValue) :=
  if objHas fs key then
    fs.map (fun p => if p.1 == key then (key, v) else p)
  else
    fs ++ [(key, v)]

/-- Whether `pat` is a prefix of `s` (character lists). -/
def strStarts : List Char → List Char → Bool
  | _, [] => true
  | [], _ :: _ => false
  | c :: cs, p :: ps => c = p && strStarts cs ps

/-- Whether `needle` occurs somewhere in `hay` (character lists). -/
def hasSubList : List Char → List Char → Bool
  | [], needle => needle.isEmpty
  | c :: t, needle => strStarts (c :: t) needle || hasSubList t needle

/-- Substring test on strings (Python `needle in haystack`). -/
def strContains (hay needle : String) : Bool :=
  hasSubList hay.toList needle.toList

/-- Python `s.startswith(pat)`. -/
def pyStartsWith (s pat : String) : Bool :=
  strStarts s.toList pat.toList

/-- Python `s.endswith(pat)`. -/
def pyEndsWith (s pat : String) : Bool :=
  strStarts s.toList.reverse pat.toList.reverse

/-- Python `s[n:]`. -/
def pyDrop (s : String) (n : Nat) : String :=
  String.mk (s.toList.drop n)

/-- Python `s[:-n]` for `n ≤ len(s)`. -/
def pyDropRight (s : String) (n : Nat) : String :=
  String.mk (s.toList.take (s.toList.length - n))

/-- Python `needle in t` where `needle` is a string: key membership for
dicts, substring for strings, element equality for lists, and a
`TypeError` for any other operand. -/
def pyContains (needle : String) (t : JsonValue) : Except String Bool :=
  match t with
  | .obj fs => .ok (objHas fs needle)
  | .str s => .ok (strContains s needle)
  | .arr xs =>
    -- Python equality between a list element and the string needle is true
    -- only when the element is an equal string.
    .ok (xs.any (fun x => match x with | .str s => s == needle | _ => false))
  | _ => .error "TypeError: argument of given type is not iterable"

/-- Python `t.get(key, default)`: only dicts have `.get`; anything else
raises `AttributeError`. -/
def pyGetD (t : JsonValue) (key : String) (dflt : JsonValue) : Except String JsonValue :=
  match t with
  | .obj fs => .ok (objGetD fs key dflt)
  | _ => .error "AttributeError: object has no attribute get"

/-- Python `"".join(parts)`: every part must be a string, otherwise
`TypeError`. -/
def pyJoinStr : List JsonValue → Except String String
  | [] => .ok ""
  | .str s :: rest =>
    match pyJoinStr rest with
    | .ok r => .ok (s ++ r)
    | .error e => .error e
  | _ :: _ => .error "TypeError: sequence item: expected str instance"

/-- Python whitespace characters stripped by `str.strip()` (ASCII part). -/
def isPyWs (c : Char) : Bool :=
  c = ' ' || c = '\t' || c = '\n' || c = '\r' || c = Char.ofNat 11 || c = Char.ofNat 12

/-- Python `s.strip()` restricted to ASCII whitespace. -/
def pyStrip (s : String) : String :=
  String.mk (((s.toList.dropWhile isPyWs).reverse.dropWhile isPyWs).reverse)

/-- Python `s.find(c)` for a single-character needle: first index or -1. -/
def pyFindChar (s : String) (c : Char) : Int :=
  match s.toList.findIdx? (· = c) with
  | some i => (i : Int)
  | none => -1

/-- Python `s.rfind(c)` for a single-character needle: last index or -1. -/
def pyRfindChar (s : String) (c : Char) : Int :=
  match s.toList.reverse.findIdx? (· = c) with
  | some i => ((s.length - 1 - i : Nat) : Int)
  | none => -1

/-- Python slice `s[a:b]` with possibly negative indices. -/
def pySlice (s : String) (a b : Int) : String :=
  let n : Int := s.length
  let lo : Nat := (if a < 0 then max (n + a) 0 else min a n).toNat
  let hi : Nat := (if b < 0 then max (n + b) 0 else min b n).toNat
  String.mk ((s.toList.take hi).drop lo)

/-! ### JSON parsing (Python `json.loads`, strict mode)

`json.loads` accepts exactly the JSON grammar (plus `NaN`/`Infinity`,
which involve IEEE floats and are not modelled; no claim exercises them).
The parser is written with explicit fuel; `json_loads` supplies enough
fuel for any input, so fuel exhaustion never occurs in practice. -/

/-- JSON structural whitespace skipped between tokens. -/
def jskipWs : List Char → List Char
  | c :: cs => if c = ' ' || c = '\t' || c = '\n' || c = '\r' then jskipWs cs else c :: cs
  | [] => []

/-- Value of a hex digit, if any. -/
def hexVal (c : Char) : Option Nat :=
  if '0' ≤ c ∧ c ≤ '9' then some (c.toNat - 48)
  else if 'a' ≤ c ∧ c ≤ 'f' then some (c.toNat - 87)
  else if 'A' ≤ c ∧ c ≤ 'F' then some (c.toNat - 55)
  else none

/-- Single-character JSON string escapes. -/
def escChar (e : Char) : Option Char :=
  if e = '"' then some '"'
  else if e = '\\' then some '\\'
  else if e = '/' then some '/'
  else if e = 'b' then some (Char.ofNat 8)
  else if e = 'f' then some (Char.ofNat 12)
  else if e = 'n' then some '\n'
  else if e = 'r' then some '\r'
  else if e = 't' then some '\t'
  else none

/-- Parse the body of a JSON string (after the opening quote), returning
the decoded characters and the remaining input.  Raw control characters
are rejected, as in Python strict mode.  Surrogate-pair combination is
not modelled (no claim exercises it). -/
def jstrChars : List Char → Except String (List Char × List Char)
  | [] => .error "Unterminated string"
  | c :: cs =>
    if c = '"' then .ok ([], cs)
    else if c = '\\' then
      match cs with
      | [] => .error "Unterminated string escape"
      | e :: cs2 =>
        if e = 'u' then
          match cs2 with
          | h1 :: h2 :: h3 :: h4 :: cs3 =>
            match hexVal h1, hexVal h2, hexVal h3, hexVal h4 with
            | some a, some b, some c3, some d =>
              match jstrChars cs3 with
              | .ok (rest, rem) => .ok (Char.ofNat (((a * 16 + b) * 16 + c3) * 16 + d) :: rest, rem)
              | .error err => .error err
            | _, _, _, _ => .error "Invalid unicode escape"
          | _ => .error "Invalid unicode escape"
        else
          match escChar e with
          | some ch =>
            match jstrChars cs2 with
            | .ok (rest, rem) => .ok (ch :: rest, rem)
            | .error err => .error err
          | none => .error "Invalid escape"
    else if c.toNat < 32 then .error "Invalid control character"
    else
      match jstrChars cs with
      | .ok (rest, rem) => .ok (c :: rest, rem)
      | .error err => .error err

/-- Numeric value of a digit sequence. -/
def digitsToNat (ds : List Char) : Nat :=
  ds.foldl (fun acc c => acc * 10 + (c.toNat - 48)) 0

/-- Parse a JSON number (grammar `-? int frac? exp?`, no leading zeros).
The exact IEEE float value is replaced by the exact rational. -/
def jparseNum (cs : List Char) : Except String (JsonValue × List Char) :=
  let (neg, cs1) :=
    match cs with
    | c :: rest => if c = '-' then (true, rest) else (false, cs)
    | [] => (false, cs)
  match cs1 with
  | [] => .error "Expecting value"
  | c :: rest =>
    if ¬ c.isDigit then .error "Expecting value"
    else
      let (intDs, cs2) := if c = '0' then ([c], rest) else (c :: rest).span Char.isDigit
      let (fracDs, cs3) :=
        match cs2 with
        | p :: d :: rest2 =>
          if p = '.' ∧ d.isDigit then (d :: rest2).span Char.isDigit
          else ([], cs2)
        | _ => ([], cs2)
      let (expNeg, expDs, cs4) :=
        match cs3 with
        | e :: rest3 =>
          if e = 'e' ∨ e = 'E' then
            match rest3 with
            | s :: rest4 =>
              if s = '-' ∧ (rest4.headD 'x').isDigit then
                let (ds, r) := rest4.span Char.isDigit
                (true, ds, r)
              else if s = '+' ∧ (rest4.headD 'x').isDigit then
                let (ds, r) := rest4.span Char.isDigit
                (false, ds, r)
              else if s.isDigit then
                let (ds, r) := rest3.span Char.isDigit
                (false, ds, r)
              else (false, [], cs3)
            | [] => (false, [], cs3)
          else (false, [], cs3)
        | [] => (false, [], cs3)
      -- integer literals avoid Rat division (division by 10^0 = 1)
      let mant : Rat :=
        if fracDs.isEmpty then (digitsToNat intDs : Rat)
        else (digitsToNat (intDs ++ fracDs) : Rat) / (10 : Rat) ^ fracDs.length
      let mant := if neg then -mant else mant
      let q : Rat :=
        if expDs.isEmpty then mant
        else if expNeg then mant / (10 : Rat) ^ digitsToNat expDs
        else mant * (10 : Rat) ^ digitsToNat expDs
      .ok (.num q, cs4)

/-- Drop a literal character sequence from the input, if it is a prefix. -/
def stripLit : List Char → List Char → Option (List Char)
  | [], cs => some cs
  | l :: ls, c :: cs => if c = l then stripLit ls cs else none
  | _ :: _, [] => none

mutual
/-- Parse one JSON value; returns the value and remaining input. -/
def jparseVal : Nat → List Char → Except String (JsonValue × List Char)
  | 0, _ => .error "json parser fuel exhausted"
  | Nat.succ fuel, cs =>
    match jskipWs cs with
    | [] => .error "Expecting value"
    | c :: rest =>
      if c = 'n' then
        match stripLit ['u', 'l', 'l'] rest with
        | some rem => .ok (.null, rem)
        | none => .error "Expecting value"
      else if c = 't' then
        match stripLit ['r', 'u', 'e'] rest with
        | some rem => .ok (.bool true, rem)
        | none => .error "Expecting value"
      else if c = 'f' then
        match stripLit ['a', 'l', 's', 'e'] rest with
        | some rem => .ok (.bool false, rem)
        | none => .error "Expecting value"
      else if c = '"' then
        match jstrChars rest with
        | .ok (chars, rem) => .ok (.str (String.mk chars), rem)
        | .error e => .error e
      else if c = lbrace then jparseMembers fuel rest [] true
      else if c = '[' then jparseElems fuel rest [] true
      else if c = '-' ∨ c.isDigit then jparseNum (c :: rest)
      else .error "Expecting value"

/-- Parse array elements after `[` (or after a comma, with `allowClose`
false so that a trailing comma is rejected). -/
def jparseElems : Nat → List Char → List JsonValue → Bool →
    Except String (JsonValue × List Char)
  | 0, _, _, _ => .error "json parser fuel exhausted"
  | Nat.succ fuel, cs, acc, allowClose =>
    match jskipWs cs with
    | [] => .error "Unterminated array"
    | c :: rest =>
      if c = ']' ∧ allowClose then .ok (.arr acc.reverse, rest)
      else
        match jparseVal fuel (c :: rest) with
        | .error e => .error e
        | .ok (v, rem) =>
          match jskipWs rem with
          | ',' :: rem2 => jparseElems fuel rem2 (v :: acc) false
          | c2 :: rem2 =>
            if c2 = ']' then .ok (.arr (v :: acc).reverse, rem2)
            else .error "Expecting comma delimiter"
          | [] => .error "Unterminated array"

/-- Parse object members after the opening brace (or after a comma, with
`allowClose` false).  A repeated key replaces the earlier value while
keeping its position, as Python dict insertion does. -/
def jparseMembers : Nat → List Char → List (String × JsonValue) → Bool →
    Except String (JsonValue × List Char)
  | 0, _, _, _ => .error "json parser fuel exhausted"
  | Nat.succ fuel, cs, acc, allowClose =>
    match jskipWs cs with
    | [] => .error "Unterminated object"
    | c :: rest =>
      if c = rbrace ∧ allowClose then .ok (.obj acc, rest)
      else if c = '"' then
        match jstrChars rest with
        | .error e => .error e
        | .ok (kcs, rem1) =>
          match jskipWs rem1 with
          | ':' :: rem2 =>
            match jparseVal fuel rem2 with
            | .error e => .error e
            | .ok (v, rem3) =>
              let acc2 := objSet acc (String.mk kcs) v
              match jskipWs rem3 with
              | ',' :: rem4 => jparseMembers fuel rem4 acc2 false
              | c2 :: rem4 =>
                if c2 = rbrace then .ok (.obj acc2, rem4)
                else .error "Expecting comma delimiter"
              | [] => .error "Unterminated object"
          | _ => .error "Expecting colon delimiter"
      else .error "Expecting property name"
end

/-- Python `json.loads`: parse one value, then require only whitespace to
remain. -/
def json_loads (s : String) : Except String JsonValue :=
  match jparseVal (2 * s.length + 8) s.toList with
  | .error e => .error e
  | .ok (v, rest) =>
    if (jskipWs rest).isEmpty then .ok v else .error "Extra data"

/-! ### Schema coercion: `validate_and_fix_json` (src/api/ai.py lines 160-264) -/

/-- A schema: field name to the declared property type string.  The Python
schema maps each name to a descriptor dict; the modelled code reads only
`descriptor["type"]`, so only that string is kept. -/
abbrev Schema := List (String × String)

/-- The `if isinstance(v, dict): v = v.get(key)` pattern used by the
select, status and date branches (`.get` with no default gives `None`). -/
def extractTag (v : JsonValue) (key : String) : JsonValue :=
  match v with
  | .obj fs => objGetD fs key .null
  | _ => v

/-- The multi_select option loop (lines 214-217): extract `.name` from
dict items, skip falsy results, stringify the rest. -/
def msOptions (items : List JsonValue) : List JsonValue :=
  items.filterMap (fun item =>
    let item := extractTag item "name"
    if pyBool item then some (.obj [("name", .str (pyStr item))]) else none)

/-- Python `float(s)` on a string: optional sign, digits with optional
fraction and exponent.  (`inf`/`nan` spellings and digit underscores are
not modelled; no claim uses them.) -/
def pyFloatOfStr (s : String) : Option Rat :=
  let cs0 := (pyStrip s).toList
  let (neg, cs1) :=
    match cs0 with
    | c :: rest => if c = '-' then (true, rest) else if c = '+' then (false, rest) else (false, cs0)
    | [] => (false, ([] : List Char))
  let (intDs, cs2) := cs1.span Char.isDigit
  let (fracDs, cs3) :=
    match cs2 with
    | p :: rest => if p = '.' then rest.span Char.isDigit else (([] : List Char), cs2)
    | [] => (([] : List Char), ([] : List Char))
  if intDs.isEmpty ∧ fracDs.isEmpty then none
  else
    let mant : Rat :=
      if fracDs.isEmpty then (digitsToNat intDs : Rat)
      else (digitsToNat (intDs ++ fracDs) : Rat) / (10 : Rat) ^ fracDs.length
    let mant := if neg then -mant else mant
    match cs3 with
    | [] => some mant
    | e :: rest =>
      if e = 'e' ∨ e = 'E' then
        let (expNeg, rest2) :=
          match rest with
          | s2 :: r2 => if s2 = '-' then (true, r2) else if s2 = '+' then (false, r2) else (false, rest)
          | [] => (false, ([] : List Char))
        let (expDs, rest3) := rest2.span Char.isDigit
        if expDs.isEmpty ∨ ¬ rest3.isEmpty then none
        else if expNeg then some (mant / (10 : Rat) ^ digitsToNat expDs)
        else some (mant * (10 : Rat) ^ digitsToNat expDs)
      else none

/-- Python `float(v)` as used in the number branch: the surrounding
`except (ValueError, TypeError)` catches every failure, so `Option`
suffices.  (Exact IEEE rounding and `OverflowError` on huge integers are
not modelled; no claim depends on them.) -/
def pyFloat : JsonValue → Option Rat
  | .num q => some q
  | .bool b => some (if b then 1 else 0)
  | .str s => pyFloatOfStr s
  | _ => none

/-- The list comprehension of the title and rich_text branches (lines 248
and 253): keep items for which the membership test `"plain_text" in t`
holds (the test itself may raise `TypeError`), extracting each kept item
with `.get` (which raises `AttributeError` on non-dicts). -/
def titleParts : List JsonValue → Except String (List JsonValue)
  | [] => .ok []
  | t :: ts =>
    match pyContains "plain_text" t with
    | .error e => .error e
    | .ok true =>
      match pyGetD t "plain_text" (.str "") with
      | .error e => .error e
      | .ok v =>
        match titleParts ts with
        | .ok rest => .ok (v :: rest)
        | .error e => .error e
    | .ok false => titleParts ts

/-- Resolve a title/rich_text candidate to the string stored as content:
lists go through the comprehension and `"".join`, everything else through
`str`. -/
def titleResolve : JsonValue → Except String String
  | .arr xs =>
    match titleParts xs with
    | .error e => .error e
    | .ok parts => pyJoinStr parts
  | v => .ok (pyStr v)

/-- One iteration of the validation loop (lines 202-262), dispatching on
the declared type of a schema field.  `.ok none` means the field is
skipped; `.error` models an uncaught Python exception. -/
def coerceField (targetType : String) (v : JsonValue) : Except String (Option JsonValue) :=
  match targetType with
  | "select" =>
    let v := extractTag v "name"
    .ok (if pyBool v then some (.obj [("select", .obj [("name", .str (pyStr v))])]) else none)
  | "multi_select" =>
    let items := match v with | .arr xs => xs | _ => [v]
    .ok (some (.obj [("multi_select", .arr (msOptions items))]))
  | "status" =>
    let v := extractTag v "name"
    .ok (if pyBool v then some (.obj [("status", .obj [("name", .str (pyStr v))])]) else none)
  | "date" =>
    let v := extractTag v "start"
    .ok (if pyBool v then some (.obj [("date", .obj [("start", .str (pyStr v))])]) else none)
  | "checkbox" => .ok (some (.obj [("checkbox", .bool (pyBool v))]))
  | "number" =>
    match v with
    | .null => .ok none
    | _ =>
      match pyFloat v with
      | some q => .ok (some (.obj [("number", .num q)]))
      | none => .ok none
  | "title" =>
    match titleResolve v with
    | .ok s => .ok (some (.obj [("title", .arr [.obj [("text", .obj [("content", .str s)])]])]))
    | .error e => .error e
  | "rich_text" =>
    match titleResolve v with
    | .ok s => .ok (some (.obj [("rich_text", .arr [.obj [("text", .obj [("content", .str s)])]])]))
    | .error e => .error e
  | _ => .ok none

/-- The validation loop over `data.items()` (lines 197-264): keys absent
from the schema are dropped, skipped fields are omitted, accepted fields
are emitted in iteration order. -/
def coerceFields : List (String × JsonValue) → Schema → Except String (List (String × JsonValue))
  | [], _ => .ok []
  | (k, v) :: rest, schema =>
    match schema.lookup k with
    | none => coerceFields rest schema
    | some targetType =>
      match coerceField targetType v with
      | .error e => .error e
      | .ok none => coerceFields rest schema
      | .ok (some cv) =>
        match coerceFields rest schema with
        | .error e => .error e
        | .ok r => .ok ((k, cv) :: r)

/-- Markdown fence stripping (lines 170-177). -/
def cleanFences (s : String) : String :=
  let s1 := pyStrip s
  let s2 := if pyStartsWith s1 "```json" then pyDrop s1 7 else s1
  let s3 := if pyStartsWith s2 "```" then pyDrop s2 3 else s2
  let s4 := if pyEndsWith s3 "```" then pyDropRight s3 3 else s3
  pyStrip s4

/-- `data.items()` requires a dict; any other parsed value raises
`AttributeError`, which is not caught inside `validate_and_fix_json`. -/
def validateDispatch (d : JsonValue) (schema : Schema) :
    Except String (List (String × JsonValue)) :=
  match d with
  | .obj fields => coerceFields fields schema
  | _ => .error "AttributeError: object has no attribute items"

/-- The `JSONDecodeError` recovery (lines 181-193): retry on the substring
between the first left brace and the last right brace; give up with an
empty dict.  (`end`, the Python variable, is `rfind + 1`, so the guard
`end != -1` can never fail; it is kept as in the source.) -/
def validateRecover (s : String) (schema : Schema) :
    Except String (List (String × JsonValue)) :=
  if pyFindChar s lbrace ≠ -1 ∧ pyRfindChar s rbrace + 1 ≠ -1 then
    match json_loads (pySlice s (pyFindChar s lbrace) (pyRfindChar s rbrace + 1)) with
    | .ok d => validateDispatch d schema
    | .error _ => .ok []
  else .ok []

/-- `validate_and_fix_json` (lines 160-264): clean fences, strict parse,
on parse failure the brace-substring recovery; then run the validation
loop over the parsed dict. -/
def validate_and_fix_json (json_str : String) (schema : Schema) :
    Except String (List (String × JsonValue)) :=
  match json_loads (cleanFences json_str) with
  | .ok d => validateDispatch d schema
  | .error _ => validateRecover (cleanFences json_str) schema

/-! ### Single-shot flow: `analyze_text_with_ai` (lines 269-338) -/

/-- The outcome of the external model executor `generate_json`. -/
structure GenResult where
  content : String
  usage : JsonValue
  cost : Rat
  model : String

/-- The caller-visible result of `analyze_text_with_ai`.  The Python dict
carries an `"error"` key only in the fallback branch; that is modelled by
`error := none` elsewhere. -/
structure AnalyzeResult where
  properties : List (String × JsonValue)
  usage : JsonValue
  cost : Rat
  model : String
  error : Option String

/-- The Notion title payload built from a raw text. -/
def titleShape (text : String) : JsonValue :=
  .obj [("title", .arr [.obj [("text", .obj [("content", .str text)])]])]

/-- The fallback loop (lines 326-330): the first schema field of type
title, populated with the raw input text. -/
def titleFallback (schema : Schema) (text : String) : List (String × JsonValue) :=
  match schema.find? (fun kv => kv.2 == "title") with
  | some kv => [(kv.1, titleShape text)]
  | none => []

/-- `analyze_text_with_ai`: the `try` block covers the model call and the
validation; any exception from either produces the title fallback with an
`error` string.  The external collaborators are abstracted: `selected_model`
is the model chosen by `select_model_for_input`, and `gen` is the outcome
of the awaited `generate_json` call (`.error` = the call raised). -/
def analyze_text_with_ai (text : String) (schema : Schema) (selected_model : String)
    (gen : Except String GenResult) : AnalyzeResult :=
  match gen with
  | .error e =>
    { properties := titleFallback schema text, usage := .obj [], cost := 0,
      model := selected_model, error := some e }
  | .ok result =>
    match validate_and_fix_json result.content schema with
    | .ok props =>
      { properties := props, usage := result.usage, cost := result.cost,
        model := result.model, error := none }
    | .error e =>
      { properties := titleFallback schema text, usage := .obj [], cost := 0,
        model := selected_model, error := some e }

/-! ### Conversational flow: `chat_analyze_text_with_ai` (lines 341-531) -/

/-- Hex digit character. -/
def hexDigit (n : Nat) : Char :=
  if n < 10 then Char.ofNat (48 + n) else Char.ofNat (87 + (n - 10))

/-- Four-digit lowercase hex rendering. -/
def hex4 (n : Nat) : String :=
  String.mk [hexDigit (n / 4096 % 16), hexDigit (n / 256 % 16), hexDigit (n / 16 % 16),
    hexDigit (n % 16)]

/-- Escaping of one character in `json.dumps` output (default
`ensure_ascii=True`: non-ASCII becomes a unicode escape, astral
characters a surrogate pair). -/
def dumpsEscape (c : Char) : String :=
  if c = '"' then "\\\""
  else if c = '\\' then "\\\\"
  else if c = '\n' then "\\n"
  else if c = '\r' then "\\r"
  else if c = '\t' then "\\t"
  else if c = Char.ofNat 8 then "\\b"
  else if c = Char.ofNat 12 then "\\f"
  else if c.toNat < 32 ∨ c.toNat > 126 then
    if c.toNat < 65536 then "\\u" ++ hex4 c.toNat
    else
      let v := c.toNat - 65536
      "\\u" ++ hex4 (55296 + v / 1024) ++ "\\u" ++ hex4 (56320 + v % 1024)
  else String.singleton c

/-- Best-effort decimal rendering of a non-integer rational (used only
to serialise numbers that came in through `json.loads`; Python float
`repr` is not modelled exactly and no claim observes this string). -/
def ratDecimal (q : Rat) : String :=
  let sign := if q < 0 then "-" else ""
  let aq : Rat := |q|
  let ip : Nat := aq.floor.toNat
  let fracNum : Nat := ((aq - (ip : Rat)) * (10 : Rat) ^ (17 : Nat)).floor.toNat
  let fracDigits := (Nat.toDigits 10 fracNum)
  let padded := List.replicate (17 - fracDigits.length) '0' ++ fracDigits
  let trimmed := (padded.reverse.dropWhile (· = '0')).reverse
  let trimmed := if trimmed.isEmpty then ['0'] else trimmed
  sign ++ toString ip ++ "." ++ String.mk trimmed

mutual
/-- Python `json.dumps` with default arguments. -/
def jsonDumps : JsonValue → String
  | .null => "null"
  | .bool true => "true"
  | .bool false => "false"
  | .num q => if q.den = 1 then toString q.num else ratDecimal q
  | .str s => "\"" ++ dumpsStr s.toList ++ "\""
  | .arr xs => "[" ++ jsonDumpsList xs ++ "]"
  | .obj fs => String.singleton lbrace ++ jsonDumpsFields fs ++ String.singleton rbrace

/-- Escaped body of a serialised string. -/
def dumpsStr : List Char → String
  | [] => ""
  | c :: cs => dumpsEscape c ++ dumpsStr cs

/-- Comma-separated serialised array elements. -/
def jsonDumpsList : List JsonValue → String
  | [] => ""
  | [x] => jsonDumps x
  | x :: xs => jsonDumps x ++ ", " ++ jsonDumpsList xs

/-- Comma-separated serialised object members. -/
def jsonDumpsFields : List (String × JsonValue) → String
  | [] => ""
  | [(k, v)] => "\"" ++ dumpsStr k.toList ++ "\": " ++ jsonDumps v
  | (k, v) :: fs => "\"" ++ dumpsStr k.toList ++ "\": " ++ jsonDumps v ++ ", " ++ jsonDumpsFields fs
end

/-- The shape-normalization step of the conversational flow (lines
446-459): wrap a bare string as a message dict, take the first element of
a list when it is a dict (empty dict otherwise), and replace a falsy
result with a fixed message dict.  Values that are none of these pass
through unchanged. -/
def chatShapeNormalize (data : JsonValue) : JsonValue :=
  let d :=
    match data with
    | .str s => .obj [("message", .str s)]
    | .arr xs =>
      match xs with
      | .obj fs :: _ => .obj fs
      | _ => .obj []
    | other => other
  if pyBool d then d else .obj [("message", .str "AIから有効な応答が得られませんでした。")]

/-- The message-field guarantee fallback (lines 480-498), entered when
`message` is missing or falsy. -/
def messageFallback (fields : List (String × JsonValue)) : List (String × JsonValue) :=
  let hasProps := objHas fields "Title" || objHas fields "Content" || objHas fields "properties"
  let msg :=
    if objHas fields "refined_text" && pyBool (objGetD fields "refined_text" .null) then
      "タスク名を「" ++ pyStr (objGetD fields "refined_text" .null) ++ "」に提案します。"
    else if hasProps then
      if objHas fields "Title" || objHas fields "Content" then
        let titleVal := objGetD fields "Title" (.str "")
        if pyBool titleVal then "内容を整理しました: " ++ pyStr titleVal
        else "プロパティを抽出しました。"
      else if objHas fields "properties" && pyBool (objGetD fields "properties" .null) then
        "プロパティを抽出しました。"
      else "プロパティを抽出しました。"
    else "（応答完了）"
  objSet fields "message" (.str msg)

/-- Post-processing of the parsed chat response (lines 479-522): the
message-field guarantee, the top-level property-leak correction, and the
re-validation of a truthy `properties` value.  A non-dict response value
reaches a membership test or an item access that raises. -/
def chatPostProcess (data : JsonValue) (schema : Schema) :
    Except String (List (String × JsonValue)) :=
  match data with
  | .obj fields0 =>
    let fields1 :=
      if objHas fields0 "message" && pyBool (objGetD fields0 "message" .null) then fields0
      else messageFallback fields0
    let fields2 :=
      if objHas fields1 "properties" then fields1
      else
        let propertyKeys := (fields1.map Prod.fst).filter (fun k => (schema.lookup k).isSome)
        if propertyKeys.isEmpty then fields1
        else
          (fields1.filter (fun p => !(propertyKeys.contains p.1))) ++
            [("properties", .obj (propertyKeys.map (fun k => (k, objGetD fields1 k .null))))]
    if objHas fields2 "properties" && pyBool (objGetD fields2 "properties" .null) then
      match validate_and_fix_json (jsonDumps (objGetD fields2 "properties" .null)) schema with
      | .error e => .error e
      | .ok props => .ok (objSet fields2 "properties" (.obj props))
    else .ok fields2
  | _ => .error "TypeError: argument of given type is not iterable"

/-- `chat_analyze_text_with_ai`: the `generate_json` call is not guarded
by any `try`, so a raising model executor (`gen = .error`) propagates to
the caller.  On success the raw content is parsed (strict, then the
brace-substring retry with no index guard, then a fixed apology dict) and
post-processed; `usage`, `cost` and `model` are attached at the end.
Prompt assembly, model selection and the image path only affect the
external call and are not modelled. -/
def chat_analyze_text_with_ai (_text : String) (schema : Schema)
    (gen : Except String GenResult) : Except String (List (String × JsonValue)) :=
  match gen with
  | .error e => .error e
  | .ok result =>
    let json_resp := result.content
    let data : JsonValue :=
      match json_loads json_resp with
      | .ok d => chatShapeNormalize d
      | .error _ =>
        match json_loads (pySlice json_resp (pyFindChar json_resp lbrace)
            (pyRfindChar json_resp rbrace + 1)) with
        | .ok d => d
        | .error _ =>
          .obj [("message", .str "AIの応答を解析できませんでした。"),
            ("raw_response", .str json_resp)]
    match chatPostProcess data schema with
    | .error e => .error e
    | .ok fields =>
      .ok (objSet (objSet (objSet fields "usage" result.usage) "cost" (.num result.cost))
        "model" (.str result.model))

/-! ### Helper lemmas -/

/-- A key with a successful lookup is among the association-list keys. -/
theorem mem_keys_of_lookup (schema : Schema) (k ty : String)
    (h : schema.lookup k = some ty) : k ∈ schema.map Prod.fst := by
  induction schema with
  | nil => simp [List.lookup] at h
  | cons a rest ih =>
    rw [List.lookup] at h
    cases hbeq : k == a.1 with
    | true => simp [eq_of_beq hbeq]
    | false =>
      rw [hbeq] at h
      simp only [List.map, List.mem_cons]
      exact Or.inr (ih h)

/-- Every key emitted by the validation loop has a schema entry. -/
theorem coerceFields_keys (data : List (String × JsonValue)) (schema : Schema) :
    ∀ out, coerceFields data schema = .ok out →
      ∀ k, k ∈ out.map Prod.fst → k ∈ schema.map Prod.fst := by
  induction data with
  | nil =>
    intro out h k hk
    rw [coerceFields] at h
    simp only [Except.ok.injEq] at h
    subst h
    simp at hk
  | cons p rest ih =>
    obtain ⟨k0, v0⟩ := p
    intro out h k hk
    rw [coerceFields] at h
    cases hl : schema.lookup k0 with
    | none =>
      simp only [hl] at h
      exact ih out h k hk
    | some ty =>
      simp only [hl] at h
      cases hc : coerceField ty v0 with
      | error e => simp [hc] at h
      | ok o =>
        cases o with
        | none =>
          simp only [hc] at h
          exact ih out h k hk
        | some cv =>
          simp only [hc] at h
          cases hr : coerceFields rest schema with
          | error e => simp [hr] at h
          | ok r =>
            simp only [hr, Except.ok.injEq] at h
            subst h
            simp only [List.map, List.mem_cons] at hk
            cases hk with
            | inl hk => exact hk ▸ mem_keys_of_lookup schema k0 ty hl
            | inr hk => exact ih r hr k hk

/-- Every value emitted by the per-field dispatch is a dict. -/
theorem coerceField_emits_obj (ty : String) (v cv : JsonValue)
    (h : coerceField ty v = .ok (some cv)) : cv.isObj = true := by
  unfold coerceField at h
  repeat' split at h
  all_goals simp_all [JsonValue.isObj]
  all_goals (obtain ⟨-, rfl⟩ := h)
  all_goals rfl

/-- The per-field dispatch never raises on a dict candidate: the only
raising branches are the title/rich_text list comprehension, which a dict
candidate does not enter. -/
theorem coerceField_obj_ok (ty : String) (fs : List (String × JsonValue)) :
    ∃ o, coerceField ty (.obj fs) = .ok o := by
  unfold coerceField
  repeat' split
  all_goals first
    | exact ⟨_, rfl⟩
    | simp_all [titleResolve, pyFloat]

/-- All values in a successful validation-loop output are dicts. -/
theorem coerceFields_vals_obj (data : List (String × JsonValue)) (schema : Schema) :
    ∀ out, coerceFields data schema = .ok out → ∀ p ∈ out, p.2.isObj = true := by
  induction data with
  | nil =>
    intro out h p hp
    rw [coerceFields] at h
    simp only [Except.ok.injEq] at h
    subst h
    simp at hp
  | cons q rest ih =>
    obtain ⟨k0, v0⟩ := q
    intro out h p hp
    rw [coerceFields] at h
    cases hl : schema.lookup k0 with
    | none =>
      simp only [hl] at h
      exact ih out h p hp
    | some ty =>
      simp only [hl] at h
      cases hc : coerceField ty v0 with
      | error e => simp [hc] at h
      | ok o =>
        cases o with
        | none =>
          simp only [hc] at h
          exact ih out h p hp
        | some cv =>
          simp only [hc] at h
          cases hr : coerceFields rest schema with
          | error e => simp [hr] at h
          | ok r =>
            simp only [hr, Except.ok.injEq] at h
            subst h
            cases hp with
            | head => exact coerceField_emits_obj ty v0 cv hc
            | tail _ hp => exact ih r hr p hp

/-- The validation loop cannot raise when every candidate value is a
dict. -/
theorem coerceFields_ok_of_obj (data : List (String × JsonValue)) (schema : Schema)
    (hv : ∀ p ∈ data, p.2.isObj = true) :
    ∃ r, coerceFields data schema = .ok r := by
  induction data with
  | nil => exact ⟨[], rfl⟩
  | cons q rest ih =>
    obtain ⟨k0, v0⟩ := q
    have hv0 : v0.isObj = true := hv (k0, v0) (by simp)
    obtain ⟨r, hr⟩ := ih (fun p hp => hv p (List.mem_cons_of_mem _ hp))
    cases hl : schema.lookup k0 with
    | none => exact ⟨r, by rw [coerceFields]; simp only [hl]; exact hr⟩
    | some ty =>
      obtain ⟨fs, rfl⟩ : ∃ fs, v0 = .obj fs := by
        cases v0 <;> simp_all [JsonValue.isObj]
      obtain ⟨o, ho⟩ := coerceField_obj_ok ty fs
      cases o with
      | none => exact ⟨r, by rw [coerceFields]; simp only [hl, ho]; exact hr⟩
      | some cv => exact ⟨(k0, cv) :: r, by rw [coerceFields]; simp only [hl, ho, hr]⟩

/-! ### Claims -/

/-- C1, counterexample: with a schema containing a title field and raw
model content that is the empty string, the single-shot flow returns an
empty properties mapping and no error field at all -- not the title
fallback with a non-empty error that the claim asserts. -/
theorem claim_C1_counterexample :
    (analyze_text_with_ai "hello" [("Name", "title")] "m"
      (.ok { content := "", usage := .obj [], cost := 0, model := "m" })).properties = []
    ∧ (analyze_text_with_ai "hello" [("Name", "title")] "m"
      (.ok { content := "", usage := .obj [], cost := 0, model := "m" })).error = none :=
  ⟨rfl, rfl⟩

/-- C1, amended: when the raw model content fails to parse and contains
no left brace (empty string or brace-free garbage), validate_and_fix_json
returns an empty dict without raising, so analyze_text_with_ai returns an
empty properties mapping with the usage, cost and model of the successful
call and no error field; the title fallback arises only from a raised
exception. -/
theorem claim_C1 (text : String) (schema : Schema) (sm : String) (r : GenResult) (e0 : String)
    (hparse : json_loads (cleanFences r.content) = .error e0)
    (hnobrace : pyFindChar (cleanFences r.content) lbrace = -1) :
    analyze_text_with_ai text schema sm (.ok r) =
      { properties := [], usage := r.usage, cost := r.cost, model := r.model,
        error := none } := by
  have hv : validate_and_fix_json r.content schema = .ok [] := by
    unfold validate_and_fix_json
    simp only [hparse]
    unfold validateRecover
    rw [hnobrace]
    simp
  unfold analyze_text_with_ai
  simp only [hv]

/-- C1, witness: the amended claim applied to empty model content. -/
theorem claim_C1_witness :
    analyze_text_with_ai "hello" [("Name", "title")] "m"
        (.ok { content := "", usage := .obj [], cost := 0, model := "m" }) =
      { properties := [], usage := .obj [], cost := 0, model := "m", error := none } :=
  claim_C1 "hello" [("Name", "title")] "m"
    { content := "", usage := .obj [], cost := 0, model := "m" } "Expecting value" rfl rfl

/-- C2, counterexample: a parsed value that is a truthy number (here 5)
passes through the shape-normalization step unchanged, so the step does
not return a mapping for every parseable value. -/
theorem claim_C2_counterexample :
    chatShapeNormalize (.num 5) = .num 5
    ∧ (chatShapeNormalize (.num 5)).isObj = false :=
  ⟨rfl, rfl⟩

/-- C2, amended: the shape-normalization step returns a mapping whenever
the parsed value is a mapping, a sequence, a string, or falsy (null,
false, zero, empty); a truthy non-string scalar is returned unchanged and
is not a mapping. -/
theorem claim_C2 (d : JsonValue)
    (h : d.isObj = true ∨ d.isArr = true ∨ d.isStr = true ∨ pyBool d = false) :
    (chatShapeNormalize d).isObj = true := by
  cases d with
  | null => rfl
  | str s => rfl
  | bool b =>
    cases b with
    | false => rfl
    | true =>
      rcases h with h | h | h | h <;>
        simp [JsonValue.isObj, JsonValue.isArr, JsonValue.isStr, pyBool] at h
  | num q =>
    have hb : pyBool (.num q) = false := by
      rcases h with h | h | h | h
      · simp [JsonValue.isObj] at h
      · simp [JsonValue.isArr] at h
      · simp [JsonValue.isStr] at h
      · exact h
    simp [chatShapeNormalize, hb, JsonValue.isObj]
  | arr xs =>
    cases xs with
    | nil => rfl
    | cons hd tl =>
      cases hd with
      | obj fs => cases fs <;> rfl
      | null => rfl
      | bool b => rfl
      | num q => rfl
      | str s => rfl
      | arr ys => rfl
  | obj fs => cases fs <;> rfl

/-- C2, witness: the amended claim applied to a bare string response. -/
theorem claim_C2_witness : (chatShapeNormalize (.str "hi")).isObj = true :=
  claim_C2 (.str "hi") (Or.inr (Or.inr (Or.inl rfl)))

/-- C3: every key in a successful validate_and_fix_json output is a key
of the schema passed to that call (candidate keys absent from the schema
are dropped without raising). -/
theorem claim_C3 (json_str : String) (schema : Schema) (out : List (String × JsonValue))
    (h : validate_and_fix_json json_str schema = .ok out) :
    ∀ k, k ∈ out.map Prod.fst → k ∈ schema.map Prod.fst := by
  intro k hk
  unfold validate_and_fix_json at h
  cases hp : json_loads (cleanFences json_str) with
  | ok d =>
    simp only [hp] at h
    cases d with
    | obj fields => exact coerceFields_keys fields schema out h k hk
    | null => simp [validateDispatch] at h
    | bool b => simp [validateDispatch] at h
    | num q => simp [validateDispatch] at h
    | str s => simp [validateDispatch] at h
    | arr xs => simp [validateDispatch] at h
  | error e =>
    simp only [hp] at h
    unfold validateRecover at h
    split at h
    · cases hp2 : json_loads (pySlice (cleanFences json_str)
          (pyFindChar (cleanFences json_str) lbrace)
          (pyRfindChar (cleanFences json_str) rbrace + 1)) with
      | ok d2 =>
        simp only [hp2] at h
        cases d2 with
        | obj fields => exact coerceFields_keys fields schema out h k hk
        | null => simp [validateDispatch] at h
        | bool b => simp [validateDispatch] at h
        | num q => simp [validateDispatch] at h
        | str s => simp [validateDispatch] at h
        | arr xs => simp [validateDispatch] at h
      | error e2 =>
        simp only [hp2, Except.ok.injEq] at h
        subst h
        simp at hk
    · simp only [Except.ok.injEq] at h
      subst h
      simp at hk

/-- C3, witness: a candidate with one schema key and one junk key. -/
theorem claim_C3_witness :
    "Status" ∈ ([("Status", "select")] : Schema).map Prod.fst :=
  claim_C3 "\x7b\"Status\":\"Done\",\"Junk\":1\x7d" [("Status", "select")]
    [("Status", .obj [("select", .obj [("name", .str "Done")])])] rfl "Status" (by simp)

/-- C4: when the model executor raises, the single-shot flow catches the
exception and returns the title-only fallback with an error string, while
the conversational flow leaves the call unguarded so the same exception
propagates to its caller. -/
theorem claim_C4 (text : String) (schema : Schema) (sm : String) (e : String) :
    analyze_text_with_ai text schema sm (.error e) =
      { properties := titleFallback schema text, usage := .obj [], cost := 0,
        model := sm, error := some e }
    ∧ chat_analyze_text_with_ai text schema (.error e) = .error e :=
  ⟨rfl, rfl⟩

/-- C5, counterexample: the parsed value null makes the normalization
step produce the fixed non-empty message mapping, not the empty mapping
the claim asserts. -/
theorem claim_C5_counterexample :
    chatShapeNormalize .null =
      .obj [("message", .str "AIから有効な応答が得られませんでした。")]
    ∧ chatShapeNormalize .null ≠ .obj [] := by
  refine ⟨rfl, ?_⟩
  simp [chatShapeNormalize, pyBool]

/-- C5, amended: a parsed value that is null, false, zero or an empty
sequence is replaced by the fixed fallback message mapping (which is
non-empty); a truthy number passes through unchanged rather than becoming
a mapping. -/
theorem claim_C5 :
    (∀ d : JsonValue, (d = .null ∨ d = .bool false ∨ d = .num 0 ∨ d = .arr []) →
      chatShapeNormalize d =
        .obj [("message", .str "AIから有効な応答が得られませんでした。")])
    ∧ (∀ q : Rat, q ≠ 0 → chatShapeNormalize (.num q) = .num q) := by
  constructor
  · intro d h
    rcases h with rfl | rfl | rfl | rfl <;> rfl
  · intro q hq
    simp [chatShapeNormalize, pyBool, hq]

/-- C5, witness: the amended claim applied to a null response. -/
theorem claim_C5_witness :
    chatShapeNormalize .null =
      .obj [("message", .str "AIから有効な応答が得られませんでした。")] :=
  claim_C5.1 .null (Or.inl rfl)

/-- C6: a multi_select field is always emitted as a multi_select list
(also when the option list is empty); a non-sequence candidate is wrapped
into a one-element sequence; dict items contribute their name, and items
yielding no truthy name are skipped. -/
theorem claim_C6 :
    (∀ v : JsonValue, ∃ opts : List JsonValue,
      coerceField "multi_select" v = .ok (some (.obj [("multi_select", .arr opts)])))
    ∧ (∀ v : JsonValue, v.isArr = false →
      coerceField "multi_select" v = coerceField "multi_select" (.arr [v]))
    ∧ coerceField "multi_select"
        (.arr [.obj [("name", .str "a")], .obj [("x", .num 1)], .null, .str "b"]) =
      .ok (some (.obj [("multi_select",
        .arr [.obj [("name", .str "a")], .obj [("name", .str "b")]])]))
    ∧ coerceField "multi_select" (.arr []) =
      .ok (some (.obj [("multi_select", .arr [])])) := by
  refine ⟨fun v => ⟨_, rfl⟩, ?_, rfl, rfl⟩
  intro v hv
  cases v <;> first | rfl | simp [JsonValue.isArr] at hv

/-- C6, witness: the wrapping conjunct applied to a scalar candidate. -/
theorem claim_C6_witness :
    coerceField "multi_select" (.str "solo") =
      coerceField "multi_select" (.arr [.str "solo"]) :=
  claim_C6.2.1 (.str "solo") rfl

/-- C7: on the fenced-free malformed content the brace-substring recovery
extracts the substring between the first left brace and the last right
brace, and coercion against a select schema yields the documented select
payload. -/
theorem claim_C7 :
    validate_and_fix_json "Sure! \x7b\"Status\":\"Done\"\x7d Hope that helps."
        [("Status", "select")] =
      .ok [("Status", .obj [("select", .obj [("name", .str "Done")])])]
    ∧ pySlice "Sure! \x7b\"Status\":\"Done\"\x7d Hope that helps."
        (pyFindChar "Sure! \x7b\"Status\":\"Done\"\x7d Hope that helps." lbrace)
        (pyRfindChar "Sure! \x7b\"Status\":\"Done\"\x7d Hope that helps." rbrace + 1) =
      "\x7b\"Status\":\"Done\"\x7d" :=
  ⟨rfl, rfl⟩

/-- C8: a checkbox field always coerces to the boolean truthiness of its
candidate value and is never omitted, both at the dispatch and inside the
validation loop. -/
theorem claim_C8 :
    (∀ v : JsonValue,
      coerceField "checkbox" v = .ok (some (.obj [("checkbox", .bool (pyBool v))])))
    ∧ (∀ (k : String) (v : JsonValue) (rest : List (String × JsonValue)) (schema : Schema)
        (r : List (String × JsonValue)),
        schema.lookup k = some "checkbox" → coerceFields rest schema = .ok r →
        coerceFields ((k, v) :: rest) schema =
          .ok ((k, .obj [("checkbox", .bool (pyBool v))]) :: r)) := by
  constructor
  · intro v; rfl
  · intro k v rest schema r hl hr
    have h1 : coerceField "checkbox" v =
        .ok (some (.obj [("checkbox", .bool (pyBool v))])) := rfl
    rw [coerceFields]
    simp only [hl, h1, hr]

/-- C8, witness: the loop-level conjunct applied to a falsy candidate. -/
theorem claim_C8_witness :
    coerceFields [("Done", .num 0)] [("Done", "checkbox")] =
      .ok [("Done", .obj [("checkbox", .bool false)])] :=
  claim_C8.2 "Done" (.num 0) [] [("Done", "checkbox")] [] rfl rfl

/-- C9: re-running the validation loop on its own coerced output (each
coerced field value as the new candidate) never raises: every coerced
value is a dict, and no dict candidate reaches a raising branch. -/
theorem claim_C9 (schema : Schema) (data out : List (String × JsonValue))
    (h : coerceFields data schema = .ok out) :
    ∃ out2, coerceFields out schema = .ok out2 :=
  coerceFields_ok_of_obj out schema (coerceFields_vals_obj data schema out h)

/-- C9, witness: a select field coerced once, then re-coerced. -/
theorem claim_C9_witness :
    ∃ out2, coerceFields [("Status", .obj [("select", .obj [("name", .str "Done")])])]
      [("Status", "select")] = .ok out2 :=
  claim_C9 [("Status", "select")] [("Status", .str "Done")]
    [("Status", .obj [("select", .obj [("name", .str "Done")])])] rfl

/-- C10: when the model content parses to a non-dict JSON value, the item
iteration raises AttributeError, the single-shot flow catches it, and the
result is the title fallback populated with the original input text plus
a non-empty error string. -/
theorem claim_C10 (text : String) (schema : Schema) (sm : String) (r : GenResult)
    (d : JsonValue) (k : String)
    (hparse : json_loads (cleanFences r.content) = .ok d)
    (hnotobj : d.isObj = false)
    (hk : schema.find? (fun kv => kv.2 == "title") = some (k, "title")) :
    analyze_text_with_ai text schema sm (.ok r) =
      { properties := [(k, titleShape text)], usage := .obj [], cost := 0, model := sm,
        error := some "AttributeError: object has no attribute items" }
    ∧ "AttributeError: object has no attribute items" ≠ "" := by
  refine ⟨?_, by simp⟩
  have hv : validate_and_fix_json r.content schema =
      .error "AttributeError: object has no attribute items" := by
    unfold validate_and_fix_json
    simp only [hparse]
    cases d with
    | obj fs => simp [JsonValue.isObj] at hnotobj
    | null => rfl
    | bool b => rfl
    | num q => rfl
    | str s => rfl
    | arr xs => rfl
  unfold analyze_text_with_ai
  simp only [hv]
  simp [titleFallback, hk, titleShape]

/-- C10, witness: model content that parses to the number 123. -/
theorem claim_C10_witness :
    analyze_text_with_ai "t" [("Name", "title")] "m"
        (.ok { content := "123", usage := .obj [], cost := 0, model := "m" }) =
      { properties := [("Name", titleShape "t")], usage := .obj [], cost := 0, model := "m",
        error := some "AttributeError: object has no attribute items" } :=
  (claim_C10 "t" [("Name", "title")] "m"
    { content := "123", usage := .obj [], cost := 0, model := "m" }
    (.num 123) "Name" rfl rfl rfl).1

end MemoAi
